import Mathlib

/-!
Verification of the Go→SQLite extension bridge (go.riyazali.net/sqlite).

This file gives a shallow embedding of the bridge's trampoline layer:

* the fundamental SQLite type codes and the accessor view of an
  `sqlite3_value` cell (func.go / value.go),
* the aggregate-context store and its finalize trampoline (func.go),
* the argument-marshalling helper `toValues` (func.go),
* virtual-table module registration `CreateModule` and the write-path
  trampoline `x_update_tramp`, the constraint-usage phase of
  `x_best_index_tramp`, and the factory helper `create_connect_shared`
  (the module/vtab file),
* the commit/rollback hook trampolines (extension.go),
* the statement-stepping retry loop `Stmt.step` (vendor_fix.go),
* the unlock-notification wait protocol (unlock_notify.c), as an
  interleaving transition system.

Go maps are modelled as association lists, Go `float64` fields as exact
rationals (`Rat`; only equality and ring operations on them are stated),
Go runtime panics (failed type assertions, out-of-range slice indexing)
as `none` / a distinguished `crash` result, and C status codes as `Nat`.
-/

namespace GoSqlite

/-- SQLite fundamental datatype codes (func.go / value.go `ColumnType`). -/
inductive ColumnType
  | integer
  | float
  | text
  | blob
  | null
deriving DecidableEq, Repr

/-- The accessor view of one `sqlite3_value` cell: a `Value` in the bridge is
an opaque pointer queried only through the accessors `IsNil`, `Int`, `Int64`,
`Float`, `Text`, `Blob` and `Type` (func.go).  We model a cell by the results
those accessors would return; `float64` results are modelled as `Rat`. -/
structure SQLValue where
  isNil : Bool
  typ : ColumnType
  intv : Int
  int64v : Int
  floatv : Rat
  textv : String
  blobv : List Nat
deriving DecidableEq, Repr

/-- An integer-valued cell as SQLite would present it (used for concrete
inputs): all numeric accessors agree with `i`. -/
def intCell (i : Int) : SQLValue :=
  ⟨false, ColumnType.integer, i, i, (i : Rat), toString i, []⟩

/-- A Go `error` value crossing the trampoline boundary: either a bridge
`ErrorCode` (carrying the SQLite status code) or any other error, observed
through its message (the trampolines test `err.(ErrorCode)`). -/
inductive GoError
  | code (c : Nat)
  | message (s : String)
deriving DecidableEq, Repr

/-! ### Aggregate context store (func.go)

`aggregateDataStore` is a Go map from the native per-group context pointer to
the accumulator value.  We model the map as an association list over `Nat`
keys (pointer identity) with Go map read/assign/delete semantics. -/

/-- Go map read: `aggregateDataStore[k]` (nil when absent). -/
def storeGet (store : List (Nat × α)) (k : Nat) : Option α :=
  (store.find? (fun p => p.1 == k)).map (·.2)

/-- Go map assignment: `aggregateDataStore[k] = v`. -/
def storeSet (store : List (Nat × α)) (k : Nat) (v : α) : List (Nat × α) :=
  (k, v) :: store.filter (fun p => p.1 != k)

/-- Go map delete: `delete(aggregateDataStore, k)`. -/
def storeDel (store : List (Nat × α)) (k : Nat) : List (Nat × α) :=
  store.filter (fun p => p.1 != k)

/-- `aggregate_function_final_tramp` (func.go): resolves the context id,
defers `delete(aggregateDataStore, id)`, then invokes the Function's `Final`.
`Final` interacts with the store only through `Data()`/`SetData(..)` on its
own slot; we model its net effect as `finalF`, mapping the slot's current
content to (the last value passed to `SetData`, if any, and whether the
finalize logic failed).  The deferred delete runs after `Final` returns or
fails, so the trampoline result is the store after that delete. -/
def aggregate_function_final_tramp (store : List (Nat × α)) (id : Nat)
    (finalF : Option α → Option α × Bool) : List (Nat × α) × Bool :=
  let r := finalF (storeGet store id)
  let store1 := match r.1 with
    | some v => storeSet store id v
    | none => store
  (storeDel store1 id, r.2)

/-! ### Argument marshalling (func.go `toValues`) -/

/-- `toValues` (func.go): converts a native argument vector of length `count`
into a Go slice.  The native vector is modelled as `va : Nat → SQLValue`.
The Go code reinterprets the base pointer as `*[127]Value` and slices it
`[:n:n]`; for `n ≤ 0` it returns the nil slice, and for `n > 127` the slice
expression is out of range for the 127-element array type and the Go runtime
aborts (modelled as `none`). -/
def toValues (count : Int) (va : Nat → SQLValue) : Option (List SQLValue) :=
  if 0 < count then
    if count ≤ 127 then some ((List.range count.toNat).map va) else none
  else some []

/-! ### Virtual-table write path (`x_update_tramp`) -/

/-- The local `equivalent` closure of `x_update_tramp`: type-aware equality
of two cells, keyed on the first cell's fundamental type. -/
def equivalent (typ : ColumnType) (v0 v1 : SQLValue) : Bool :=
  match typ with
  | ColumnType.integer => v0.intv == v1.intv || v0.int64v == v1.int64v
  | ColumnType.float => v0.floatv == v1.floatv
  | ColumnType.text => v0.textv == v1.textv
  | ColumnType.blob => v0.blobv == v1.blobv
  | ColumnType.null => false

/-- Which `WriteableVirtualTable` method `x_update_tramp` invokes, with the
arguments it passes. -/
inductive UpdateOp
  | deleteOp (key : SQLValue)
  | insertOp (cols : List SQLValue)
  | updateOp (key : SQLValue) (cols : List SQLValue)
  | replaceOp (oldKey newKey : SQLValue) (cols : List SQLValue)
deriving DecidableEq, Repr

/-- The dispatch performed by `x_update_tramp` on the marshalled argument
list `argv`: `argc == 1` with a non-NULL value is a delete; otherwise a NULL
first value is an insert of `argv[2:]`, an `equivalent` first/second pair is
an in-place update, and anything else is a key-changing replace.  `none`
models the Go runtime aborting (indexing `argv[0]` of an empty slice, or
slicing `argv[2:]` beyond the capacity of a one-element slice) — argument
shapes SQLite never produces for `xUpdate`. -/
def xUpdateRoute : List SQLValue → Option UpdateOp
  | [] => none
  | [v0] =>
    if v0.typ ≠ ColumnType.null then some (UpdateOp.deleteOp v0) else none
  | v0 :: v1 :: rest =>
    if v0.typ = ColumnType.null then some (UpdateOp.insertOp rest)
    else if equivalent v0.typ v0 v1 then some (UpdateOp.updateOp v0 rest)
    else some (UpdateOp.replaceOp v0 v1 rest)

/-- The write methods of a `WriteableVirtualTable` implementation, as the
trampoline observes them: `Insert` returns a chosen rowid or an error, the
rest return an optional error. -/
structure WriteableTableOps where
  insertF : List SQLValue → Except GoError Int
  updateF : SQLValue → List SQLValue → Option GoError
  replaceF : SQLValue → SQLValue → List SQLValue → Option GoError
  deleteF : SQLValue → Option GoError

/-- The call `x_update_tramp` makes for a routed operation, paired with the
content of the engine's `*rowid` out-cell afterwards: only a successful
`Insert` overwrites it (`*rowid = C.sqlite3_int64(id)`). -/
def applyUpdateOp (t : WriteableTableOps) (rowidCell : Int) :
    UpdateOp → Option GoError × Int
  | UpdateOp.deleteOp v => (t.deleteF v, rowidCell)
  | UpdateOp.insertOp cols =>
    match t.insertF cols with
    | Except.ok id => (none, id)
    | Except.error e => (some e, rowidCell)
  | UpdateOp.updateOp k cols => (t.updateF k cols, rowidCell)
  | UpdateOp.replaceOp o n cols => (t.replaceF o n cols, rowidCell)

/-- `x_update_tramp` (module file): route the argument list, invoke the
corresponding table method, report its error (if any) and the resulting
`*rowid` cell.  `none` models a Go runtime abort on a malformed argument
shape. -/
def x_update_tramp (t : WriteableTableOps) (rowidCell : Int)
    (argv : List SQLValue) : Option (Option GoError × Int) :=
  (xUpdateRoute argv).map (applyUpdateOp t rowidCell)

/-! ### Module registration (`CreateModule`) -/

/-- The two factory trampolines a module registration can install:
`x_connect_tramp` dispatches to `Module.Connect`, `x_create_tramp` (which
type-asserts the module to `StatefulModule`) dispatches to `Create`. -/
inductive VtabTramp
  | connectTramp
  | createTramp
deriving DecidableEq, Repr

/-- The `xCreate`/`xConnect` slots of the `sqlite3_module` built by
`CreateModule`. -/
structure ModuleRegistration where
  xCreate : Option VtabTramp
  xConnect : Option VtabTramp
deriving DecidableEq, Repr

/-- `CreateModule` (module file), reduced to the inputs that decide the
factory wiring: whether the module implements `StatefulModule` and whether
the `EponymousOnly` option was set.  A stateful eponymous-only module is
rejected at registration; otherwise `xConnect` is always the connect
trampoline, and `xCreate` is copied from `xConnect` when the module is not
eponymous-only, set to the create trampoline when it is eponymous-only and
stateful, and left nil otherwise. -/
def CreateModule (stateful eponymousOnly : Bool) :
    Except String ModuleRegistration :=
  if eponymousOnly && stateful then
    Except.error "stateful module cannot be eponymous-only"
  else
    let xConnect : Option VtabTramp := some VtabTramp.connectTramp
    let xCreate : Option VtabTramp :=
      if !eponymousOnly then xConnect
      else if stateful then some VtabTramp.createTramp
      else none
    Except.ok ⟨xCreate, xConnect⟩

/-! ### Commit / rollback hooks (extension.go) -/

/-- A callback saved into the handle registry, tagged with its Go dynamic
type: `RegisterCommitHook` and `RegisterRollbackHook` both store a
`func() int`; a `func()` is the type `rollback_hook_tramp` expects. -/
inductive StoredCallback
  | intFn (f : Unit → Int)
  | unitFn (f : Unit → Unit)

/-- `RegisterRollbackHook` (extension.go): for a non-nil `fn func() int` it
saves `fn` (dynamic type `func() int`) as the hook's application pointer;
for nil it clears the hook and stores nothing. -/
def RegisterRollbackHook (fn : Option (Unit → Int)) : Option StoredCallback :=
  fn.map StoredCallback.intFn

/-- `rollback_hook_tramp` (extension.go): restores the application pointer
and type-asserts it to `func()` before calling it.  A stored value of any
other dynamic type makes the assertion panic (`none`). -/
def rollback_hook_tramp : StoredCallback → Option Unit
  | StoredCallback.unitFn f => some (f ())
  | StoredCallback.intFn _ => none

/-- `commit_hook_tramp` (extension.go): restores the application pointer,
type-asserts it to `func() int`, calls it and returns its result to the
engine (non-zero aborts the transaction). -/
def commit_hook_tramp : StoredCallback → Option Int
  | StoredCallback.intFn f => some (f ())
  | StoredCallback.unitFn _ => none

/-! ### The `Sum` window aggregate (func_window_test.go)

`SumContext` fields mirror the Go struct; the `float64` running sum is
modelled as `Rat` (the claims proved about it never depend on rounding). -/

structure SumContext where
  rSum : Rat
  iSum : Int
  count : Int
  approx : Bool
deriving DecidableEq, Repr

/-- `Sum.Step` (func_window_test.go): installs a zero-valued `SumContext` on
first use (`data = none`), then for a non-nil argument increments the count
and adds to the exact integer sum for `SQLITE_INTEGER` inputs, or switches
permanently to approximate mode and adds to the floating sum otherwise.  The
result is the slot content after the call. -/
def sumStep (data : Option SumContext) (val : SQLValue) : SumContext :=
  let s := data.getD ⟨0, 0, 0, false⟩
  if !val.isNil then
    if val.typ = ColumnType.integer then
      { s with count := s.count + 1, iSum := s.iSum + val.int64v }
    else
      { s with count := s.count + 1, approx := true,
               rSum := s.rSum + val.floatv }
  else s

/-- `Sum.Inverse` (func_window_test.go): for an integer argument while not in
approximate mode it subtracts the value from both running sums; otherwise it
subtracts the float image from the floating sum only. -/
def sumInverse (s : SumContext) (val : SQLValue) : SumContext :=
  if val.typ = ColumnType.integer && !s.approx then
    { s with rSum := s.rSum - (val.int64v : Rat), iSum := s.iSum - val.int64v }
  else
    { s with rSum := s.rSum - val.floatv }

/-! ### Factory helper `create_connect_shared` (module file) -/

/-- What the bridge observes of one `Create`/`Connect` handler invocation:
how many times the handler invoked the engine's schema-`declare` callback,
and the error it returned (nil on success). -/
structure FactoryCallResult where
  declareCalls : Nat
  err : Option GoError

/-- `create_connect_shared` (module file): returns the status code handed to
the engine and the message placed in `*pzErr` (if any).  A handler error that
is a bridge `ErrorCode` other than `SQLITE_OK` is returned verbatim; any
other handler error becomes `SQLITE_ERROR` (1) with its message; otherwise
the table handle is allocated and `SQLITE_OK` (0) is returned (allocation is
assumed to succeed).  Note the function never consults `declareCalls`. -/
def create_connect_shared (r : FactoryCallResult) : Nat × Option String :=
  match r.err with
  | some (GoError.code c) => if c ≠ 0 then (c, none) else (0, none)
  | some (GoError.message s) => (1, some s)
  | none => (0, none)

/-! ### Constraint-usage phase of `x_best_index_tramp` (module file) -/

/-- One pre-allocated `sqlite3_index_constraint_usage` cell; SQLite zeroes
the array before the call. -/
structure UsageCell where
  argvIndex : Int
  omitFlag : Bool
deriving DecidableEq, Repr

/-- A `*ConstraintUsage` entry of the handler's output list (`none` models a
nil pointer entry, which the loop skips). -/
structure ConstraintUsageOut where
  argvIndex : Int
  omitOut : Bool
deriving DecidableEq, Repr

/-- One loop body iteration of the usage-writing loop: `usage[i].argvIndex =
c.ArgvIndex; if c.Omit { usage[i].omit = 1 }`.  Indexing past the
engine-allocated array is a Go bounds-check abort (`none`). -/
def writeUsageAt (usage : List UsageCell) (i : Nat) (c : ConstraintUsageOut) :
    Option (List UsageCell) :=
  if h : i < usage.length then
    some (usage.set i ⟨c.argvIndex, c.omitOut || usage[i].omitFlag⟩)
  else none

/-- The `for i, c := range output.ConstraintUsage` loop over the handler's
output, writing cell `i` for each non-nil entry. -/
def applyConstraintUsage (usage : List UsageCell) (i : Nat) :
    List (Option ConstraintUsageOut) → Option (List UsageCell)
  | [] => some usage
  | none :: rest => applyConstraintUsage usage (i + 1) rest
  | some c :: rest =>
    match writeUsageAt usage i c with
    | some usage1 => applyConstraintUsage usage1 (i + 1) rest
    | none => none

/-- The outcome of the usage phase of `x_best_index_tramp` as the engine (or
the process) sees it: either the trampoline keeps going and ultimately
returns a status code, or the Go runtime aborts inside the loop. -/
inductive BestIndexOutcome
  | continued (cells : List UsageCell)
  | crash
deriving DecidableEq, Repr

/-- The usage phase of `x_best_index_tramp` for an input constraint list of
length `k`: the engine pre-allocates `k` zeroed cells (`nConstraint`), and
the trampoline walks the handler's usage output over them. -/
def bestIndexUsagePhase (k : Nat) (usageOut : List (Option ConstraintUsageOut)) :
    BestIndexOutcome :=
  match applyConstraintUsage (List.replicate k ⟨0, false⟩) 0 usageOut with
  | some cells => BestIndexOutcome.continued cells
  | none => BestIndexOutcome.crash

/-! ### Statement stepping (vendor_fix.go `Stmt.step`) -/

/-- The observable native calls the stepping loop makes. -/
inductive StepAction
  | sqliteStep (res : Nat)
  | waitUnlock (res : Nat)
  | resetStmt
deriving DecidableEq, Repr

/-- How a run of the stepping loop ends (`scriptEnded` marks exhaustion of
the finite driver script, i.e. the loop would keep iterating). -/
inductive StepOutcome
  | row
  | done
  | fail (code : Nat)
  | scriptEnded
deriving DecidableEq, Repr

/-- `Stmt.step` (vendor_fix.go): an infinite retry loop around
`sqlite3_step`, driven here by the finite script `rs` of step results and
`ws` of `wait_for_unlock_notify` results.  The switch reduces the result to
its non-extended code (`uint8(res)`, i.e. `res % 256`): `SQLITE_LOCKED` (6)
returns the error immediately unless the extended code is exactly
`SQLITE_LOCKED_SHAREDCACHE` (262), in which case it waits for the unlock
notification, fails if the wait fails, and otherwise resets the statement
and retries from the top; `SQLITE_ROW` (100) and `SQLITE_DONE` (101) report
a row / completion; everything else is an error. -/
def stmtStepLoop : List Nat → List Nat → List StepAction × StepOutcome
  | [], _ => ([], StepOutcome.scriptEnded)
  | res :: rs, ws =>
    if res % 256 = 6 then
      if res ≠ 262 then ([StepAction.sqliteStep res], StepOutcome.fail res)
      else
        match ws with
        | [] => ([StepAction.sqliteStep res], StepOutcome.scriptEnded)
        | w :: ws1 =>
          if w ≠ 0 then
            ([StepAction.sqliteStep res, StepAction.waitUnlock w],
             StepOutcome.fail w)
          else
            let t := stmtStepLoop rs ws1
            (StepAction.sqliteStep res :: StepAction.waitUnlock w ::
               StepAction.resetStmt :: t.1, t.2)
    else if res % 256 = 100 then ([StepAction.sqliteStep res], StepOutcome.row)
    else if res % 256 = 101 then ([StepAction.sqliteStep res], StepOutcome.done)
    else ([StepAction.sqliteStep res], StepOutcome.fail res)

/-! ### Unlock-notification protocol (unlock_notify.c)

`_wait_for_unlock_notify` and `_unlock_note_fire` are modelled as a two
thread interleaving system over the shared `_unlock_note` record (fired
flag, mutex, condition variable).  One waiter (the connection's stepping
thread — the bridge serializes stepping per connection) runs the wait
routine; the engine's notification callback runs the fire routine exactly
once, and only after the waiter has successfully armed the notification
(`sqlite3_unlock_notify` returned `SQLITE_OK`; on failure the callback is
never registered and the waiter returns without waiting). -/

/-- Program counter of the waiting thread through `_wait_for_unlock_notify`:
clear the fired flag (unlocked write), arm the notification, then — only on
successful arming — lock the mutex, test the flag, `pthread_cond_wait` if it
is still clear (atomically releasing the mutex), reacquire the mutex when
signalled, unlock, return. -/
inductive WaiterPC
  | clearFlag
  | arm
  | acquire
  | checkFlag
  | blocked
  | reacquire
  | release
  | finished
deriving DecidableEq, Repr

/-- Program counter of the firing thread through `_unlock_note_fire`: lock
the mutex, set the fired flag, signal the condition variable, unlock. -/
inductive FirerPC
  | start
  | setFlag
  | signal
  | release
  | finished
deriving DecidableEq, Repr

/-- Shared state of the protocol: the `_unlock_note` record plus both
threads' positions.  `mutexOwner` is `none` when the mutex is free, `some
true`/`some false` when the waiter / firer holds it; `armed` records whether
the notification callback has been registered (gating the firer). -/
structure NoteSystem where
  fired : Bool
  mutexOwner : Option Bool
  armed : Bool
  wpc : WaiterPC
  fpc : FirerPC
deriving DecidableEq, Repr

/-- All interleaved successor states.  `armOk` fixes the result of
`sqlite3_unlock_notify`: on failure the waiter skips the wait entirely and
the firer never runs.  `pthread_cond_wait` is entered atomically (flag test,
queue entry and mutex release are one step, both under the mutex), and
`pthread_cond_signal` moves a blocked waiter to the reacquire stage. -/
def noteSteps (armOk : Bool) (s : NoteSystem) : List NoteSystem :=
  let waiter : List NoteSystem :=
    match s.wpc with
    | WaiterPC.clearFlag => [{ s with fired := false, wpc := WaiterPC.arm }]
    | WaiterPC.arm =>
      if armOk then [{ s with armed := true, wpc := WaiterPC.acquire }]
      else [{ s with wpc := WaiterPC.finished }]
    | WaiterPC.acquire =>
      if s.mutexOwner = none then
        [{ s with mutexOwner := some true, wpc := WaiterPC.checkFlag }]
      else []
    | WaiterPC.checkFlag =>
      if s.fired then [{ s with wpc := WaiterPC.release }]
      else [{ s with mutexOwner := none, wpc := WaiterPC.blocked }]
    | WaiterPC.blocked => []
    | WaiterPC.reacquire =>
      if s.mutexOwner = none then
        [{ s with mutexOwner := some true, wpc := WaiterPC.release }]
      else []
    | WaiterPC.release => [{ s with mutexOwner := none, wpc := WaiterPC.finished }]
    | WaiterPC.finished => []
  let firer : List NoteSystem :=
    if s.armed then
      match s.fpc with
      | FirerPC.start =>
        if s.mutexOwner = none then
          [{ s with mutexOwner := some false, fpc := FirerPC.setFlag }]
        else []
      | FirerPC.setFlag => [{ s with fired := true, fpc := FirerPC.signal }]
      | FirerPC.signal =>
        if s.wpc = WaiterPC.blocked then
          [{ s with wpc := WaiterPC.reacquire, fpc := FirerPC.release }]
        else [{ s with fpc := FirerPC.release }]
      | FirerPC.release => [{ s with mutexOwner := none, fpc := FirerPC.finished }]
      | FirerPC.finished => []
    else []
  waiter ++ firer

/-- Initial state: the fired flag holds an arbitrary leftover value `b`, the
mutex is free, nothing is armed, the waiter is about to run
`_wait_for_unlock_notify` and the engine callback has not run. -/
def noteInit (b : Bool) : NoteSystem :=
  ⟨b, none, false, WaiterPC.clearFlag, FirerPC.start⟩

/-- Reachability in the interleaving system. -/
inductive NoteReachable (armOk : Bool) (s : NoteSystem) : NoteSystem → Prop
  | refl : NoteReachable armOk s s
  | tail {t u : NoteSystem} : NoteReachable armOk s t → u ∈ noteSteps armOk t →
      NoteReachable armOk s u

/-- Fueled forward closure of a set of states under `noteSteps`; the state
space is finite, so enough fuel reaches a fixed point. -/
def noteClosure (armOk : Bool) : Nat → List NoteSystem → List NoteSystem
  | 0, acc => acc
  | n + 1, acc =>
    let next := (acc ++ acc.flatMap (noteSteps armOk)).dedup
    if next.length = acc.length then acc else noteClosure armOk n next

/-- All states reachable from either initial state when arming succeeds. -/
def noteReachTrue : List NoteSystem :=
  noteClosure true 40 [noteInit true, noteInit false]

/-- All states reachable from either initial state when arming fails. -/
def noteReachFalse : List NoteSystem :=
  noteClosure false 40 [noteInit true, noteInit false]

/-! ### Concrete fixtures used by witnesses -/

/-- A SQL NULL cell as the accessors present it. -/
def nullCell : SQLValue := ⟨false, ColumnType.null, 0, 0, 0, "", []⟩

/-- A concrete writable table whose `Insert` always chooses rowid 42. -/
def demoTableOps : WriteableTableOps where
  insertF := fun _ => Except.ok 42
  updateF := fun _ _ => none
  replaceF := fun _ _ _ => none
  deleteF := fun _ => none

/-! ## Theorems -/

lemma storeGet_storeDel (s : List (Nat × α)) (k : Nat) :
    storeGet (storeDel s k) k = none := by
  induction s with
  | nil => rfl
  | cons p t ih =>
    by_cases h : p.1 = k
    · simpa [storeDel, List.filter_cons, h] using ih
    · simp [storeDel, storeGet, List.filter_cons, List.find?_cons, h]

/-- Claim C3: the finalize trampoline removes the accumulator slot keyed by
the invocation's context pointer from the aggregate data store
unconditionally — whatever the Function's `Final` logic does to the slot and
even when it raises an error — so afterwards no entry for that pointer
remains. -/
theorem aggregate_final_always_evicts (store : List (Nat × α)) (id : Nat)
    (finalF : Option α → Option α × Bool) :
    storeGet (aggregate_function_final_tramp store id finalF).1 id = none := by
  unfold aggregate_function_final_tramp
  cases (finalF (storeGet store id)).1 <;> simp <;> exact storeGet_storeDel _ _

/-- Claim C1: `x_update_tramp` routing — a single non-NULL argument is a
delete of that value; a NULL first value is an insert of the remaining
column values (with a successfully inserted rowid written to the engine's
out-cell); an `equivalent` first/second pair is an in-place update; any
other pair is a replace carrying both keys. -/
theorem x_update_tramp_routing (t : WriteableTableOps) (rowidCell : Int)
    (v0 v1 : SQLValue) (rest : List SQLValue) :
    (v0.typ ≠ ColumnType.null →
       xUpdateRoute [v0] = some (UpdateOp.deleteOp v0)) ∧
    (v0.typ = ColumnType.null →
       xUpdateRoute (v0 :: v1 :: rest) = some (UpdateOp.insertOp rest)) ∧
    (v0.typ ≠ ColumnType.null → equivalent v0.typ v0 v1 = true →
       xUpdateRoute (v0 :: v1 :: rest) = some (UpdateOp.updateOp v0 rest)) ∧
    (v0.typ ≠ ColumnType.null → equivalent v0.typ v0 v1 = false →
       xUpdateRoute (v0 :: v1 :: rest) =
         some (UpdateOp.replaceOp v0 v1 rest)) ∧
    (∀ id : Int, v0.typ = ColumnType.null → t.insertF rest = Except.ok id →
       x_update_tramp t rowidCell (v0 :: v1 :: rest) = some (none, id)) := by
  refine ⟨?_, ?_, ?_, ?_, ?_⟩
  · intro h; simp [xUpdateRoute, h]
  · intro h; simp [xUpdateRoute, h]
  · intro h he; simp [xUpdateRoute, h, he]
  · intro h he; simp [xUpdateRoute, h, he]
  · intro id h hi
    simp [x_update_tramp, xUpdateRoute, applyUpdateOp, h, hi]

/-- Witness for C1 at concrete inputs. -/
theorem x_update_tramp_routing_witness :
    xUpdateRoute [intCell 7] = some (UpdateOp.deleteOp (intCell 7)) ∧
    xUpdateRoute [nullCell, intCell 7, intCell 3] =
      some (UpdateOp.insertOp [intCell 3]) ∧
    xUpdateRoute [intCell 7, intCell 7, intCell 3] =
      some (UpdateOp.updateOp (intCell 7) [intCell 3]) ∧
    xUpdateRoute [intCell 7, intCell 8, intCell 3] =
      some (UpdateOp.replaceOp (intCell 7) (intCell 8) [intCell 3]) ∧
    x_update_tramp demoTableOps 0 [nullCell, intCell 7, intCell 3] =
      some (none, 42) := by
  have h7 := x_update_tramp_routing demoTableOps 0 (intCell 7) (intCell 7) [intCell 3]
  have h78 := x_update_tramp_routing demoTableOps 0 (intCell 7) (intCell 8) [intCell 3]
  have hn := x_update_tramp_routing demoTableOps 0 nullCell (intCell 7) [intCell 3]
  exact ⟨h7.1 (by decide), hn.2.1 rfl, h7.2.2.1 (by decide) (by decide),
         h78.2.2.2.1 (by decide) (by decide), hn.2.2.2.2 42 rfl rfl⟩

/-- Claim C2 (evidence of divergence): registration wiring of `CreateModule`
for all four (stateful, eponymous-only) combinations.  A stateful
eponymous-only module is rejected at registration and an eponymous-only
module gets no `xCreate` entry point, as the claim states; but a stateful
module registered without the eponymous-only option gets the *connect*
trampoline as its `xCreate`, so `CREATE VIRTUAL TABLE` dispatches to
`Connect`, never to `Create` (the create trampoline is only selected in the
eponymous-only branch, which registration has already rejected). -/
theorem CreateModule_wiring :
    CreateModule true true =
      Except.error "stateful module cannot be eponymous-only" ∧
    CreateModule false true =
      Except.ok ⟨none, some VtabTramp.connectTramp⟩ ∧
    CreateModule false false =
      Except.ok ⟨some VtabTramp.connectTramp, some VtabTramp.connectTramp⟩ ∧
    CreateModule true false =
      Except.ok ⟨some VtabTramp.connectTramp, some VtabTramp.connectTramp⟩ :=
  ⟨rfl, rfl, rfl, rfl⟩

/-- Claim C5 (evidence of divergence): stepping the `Sum` aggregate with the
integer 1 from the all-integer state `⟨0, 5, 1, false⟩` and then inverting
the same value does not restore the pre-step accumulator: `Inverse` omits
the count decrement and subtracts from the (hitherto untouched) floating
field, leaving `⟨-1, 5, 2, false⟩`.  Only the integer sum is restored. -/
theorem Sum_step_inverse_divergence :
    sumStep (some ⟨0, 5, 1, false⟩) (intCell 1) = ⟨0, 6, 2, false⟩ ∧
    sumInverse ⟨0, 6, 2, false⟩ (intCell 1) = ⟨-1, 5, 2, false⟩ ∧
    sumInverse (sumStep (some ⟨0, 5, 1, false⟩) (intCell 1)) (intCell 1) ≠
      ⟨0, 5, 1, false⟩ := by
  refine ⟨by norm_num [sumStep, intCell], by norm_num [sumInverse, intCell],
          by norm_num [sumStep, sumInverse, intCell]⟩

/-- Claim C7 (evidence of divergence): `RegisterRollbackHook` stores its
callback with dynamic type `func() int`, but `rollback_hook_tramp`
type-asserts the stored value to `func()`, so the trampoline panics instead
of delivering the notification; the commit half behaves as claimed,
returning the callback's integer to the engine. -/
theorem rollback_hook_tramp_type_mismatch :
    RegisterRollbackHook (some fun _ => 0) =
      some (StoredCallback.intFn fun _ => 0) ∧
    rollback_hook_tramp (StoredCallback.intFn fun _ => 0) = none ∧
    commit_hook_tramp (StoredCallback.intFn fun _ => 7) = some 7 :=
  ⟨rfl, rfl, rfl⟩

/-- Counterexample for C8: a handler that returns success without ever
invoking the schema-declare callback is reported to the engine as success
(`SQLITE_OK`, no message) — the bridge performs no guard. -/
theorem create_connect_shared_silent_success :
    create_connect_shared ⟨0, none⟩ = (0, none) := rfl

/-- Claim C8, amended: `create_connect_shared` never consults the number of
declare invocations — its status depends only on the handler's returned
error, which is propagated as its code, or as the generic failure status
plus its message; handler success is reported as success whether or not the
schema was declared. -/
theorem create_connect_shared_ignores_declare (n m : Nat)
    (e : Option GoError) :
    create_connect_shared ⟨n, e⟩ = create_connect_shared ⟨m, e⟩ ∧
    (∀ c : Nat, c ≠ 0 → e = some (GoError.code c) →
       create_connect_shared ⟨n, e⟩ = (c, none)) ∧
    (∀ s : String, e = some (GoError.message s) →
       create_connect_shared ⟨n, e⟩ = (1, some s)) ∧
    (e = none → create_connect_shared ⟨n, e⟩ = (0, none)) := by
  refine ⟨rfl, ?_, ?_, ?_⟩
  · intro c hc he; subst he; simp [create_connect_shared, hc]
  · intro s he; subst he; rfl
  · intro he; subst he; rfl

/-- Witness for the amended C8 at concrete inputs. -/
theorem create_connect_shared_ignores_declare_witness :
    create_connect_shared ⟨2, some (GoError.code 5)⟩ =
      create_connect_shared ⟨9, some (GoError.code 5)⟩ ∧
    create_connect_shared ⟨2, some (GoError.code 5)⟩ = (5, none) ∧
    create_connect_shared ⟨3, some (GoError.message "no schema")⟩ =
      (1, some "no schema") ∧
    create_connect_shared ⟨4, none⟩ = (0, none) :=
  ⟨(create_connect_shared_ignores_declare 2 9 _).1,
   (create_connect_shared_ignores_declare 2 9 _).2.1 5 (by decide) rfl,
   (create_connect_shared_ignores_declare 3 0 _).2.2.1 "no schema" rfl,
   (create_connect_shared_ignores_declare 4 0 _).2.2.2 rfl⟩

/-- Claim C10: `toValues` yields exactly `n` values for `0 ≤ n ≤ 127`, the
empty sequence for `n ≤ 0`, and aborts (rather than reading out of the
127-element array bound) for `n > 127`. -/
theorem toValues_arity (count : Int) (va : Nat → SQLValue) :
    (0 ≤ count → count ≤ 127 →
       (toValues count va).map List.length = some count.toNat) ∧
    (count ≤ 0 → toValues count va = some []) ∧
    (127 < count → toValues count va = none) := by
  refine ⟨?_, ?_, ?_⟩
  · intro h0 h127
    by_cases h : 0 < count
    · simp [toValues, h, h127]
    · have hc : count = 0 := le_antisymm (not_lt.mp h) h0
      subst hc; simp [toValues]
  · intro h
    have h1 : ¬ 0 < count := not_lt.mpr h
    simp [toValues, h1]
  · intro h
    have h1 : (0 : Int) < count := lt_trans (by norm_num) h
    have h2 : ¬ count ≤ 127 := not_le.mpr h
    simp [toValues, h1, h2]

lemma applyConstraintUsage_char :
    ∀ (out : List (Option ConstraintUsageOut)) (usage : List UsageCell)
      (i : Nat), i + out.length ≤ usage.length →
      ∃ res, applyConstraintUsage usage i out = some res ∧
        res.length = usage.length ∧
        ∀ j : Nat,
          res[j]? =
            if j < i then usage[j]?
            else
              match out[j - i]? with
              | some (some c) =>
                (usage[j]?).map fun old =>
                  (⟨c.argvIndex, c.omitOut || old.omitFlag⟩ : UsageCell)
              | _ => usage[j]? := by
  intro out
  induction out with
  | nil =>
    intro usage i _
    refine ⟨usage, rfl, rfl, fun j => ?_⟩
    by_cases hj : j < i
    · simp [hj]
    · simp [hj]
  | cons o rest ih =>
    intro usage i hb
    rw [List.length_cons] at hb
    cases o with
    | none =>
      obtain ⟨res, hres, hlen, hchar⟩ := ih usage (i + 1) (by omega)
      refine ⟨res, by simpa [applyConstraintUsage] using hres, hlen, fun j => ?_⟩
      have h := hchar j
      rcases Nat.lt_trichotomy j i with hj | hj | hj
      · rw [if_pos hj]
        rw [if_pos (by omega)] at h
        exact h
      · subst hj
        rw [if_neg (lt_irrefl _), Nat.sub_self, List.getElem?_cons_zero]
        rw [if_pos (by omega)] at h
        exact h
      · rw [if_neg (by omega)]
        rw [if_neg (by omega)] at h
        have hji : j - i = (j - (i + 1)) + 1 := by omega
        rw [hji, List.getElem?_cons_succ]
        exact h
    | some c =>
      have hi : i < usage.length := by omega
      have hw : writeUsageAt usage i c =
          some (usage.set i ⟨c.argvIndex, c.omitOut || usage[i].omitFlag⟩) := by
        simp [writeUsageAt, hi]
      obtain ⟨res, hres, hlen, hchar⟩ :=
        ih (usage.set i ⟨c.argvIndex, c.omitOut || usage[i].omitFlag⟩) (i + 1)
          (by simp; omega)
      refine ⟨res, ?_, by simpa using hlen, fun j => ?_⟩
      · simp only [applyConstraintUsage, hw]
        exact hres
      · have h := hchar j
        rcases Nat.lt_trichotomy j i with hj | hj | hj
        · rw [if_pos hj]
          rw [if_pos (by omega)] at h
          rw [h]
          exact List.getElem?_set_ne (by omega)
        · subst hj
          rw [if_neg (lt_irrefl _), Nat.sub_self, List.getElem?_cons_zero]
          rw [if_pos (by omega)] at h
          rw [h, List.getElem?_set_eq_of_lt _ hi, List.getElem?_eq_getElem hi]
          rfl
        · rw [if_neg (by omega)]
          rw [if_neg (by omega)] at h
          have hji : j - i = (j - (i + 1)) + 1 := by omega
          rw [hji, List.getElem?_cons_succ]
          have hset : (usage.set i
              ⟨c.argvIndex, c.omitOut || usage[i].omitFlag⟩)[j]? = usage[j]? :=
            List.getElem?_set_ne (by omega)
          simp only [hset] at h
          exact h

lemma applyConstraintUsage_oob :
    ∀ (out : List (Option ConstraintUsageOut)) (usage : List UsageCell)
      (i j : Nat) (c : ConstraintUsageOut),
      out[j]? = some (some c) → usage.length ≤ i + j →
      applyConstraintUsage usage i out = none := by
  intro out
  induction out with
  | nil => intro usage i j c hj _; simp at hj
  | cons o rest ih =>
    intro usage i j c hj hlen
    cases o with
    | none =>
      cases j with
      | zero => simp at hj
      | succ j1 =>
        rw [List.getElem?_cons_succ] at hj
        simpa [applyConstraintUsage] using ih usage (i + 1) j1 c hj (by omega)
    | some c0 =>
      by_cases hi : i < usage.length
      · cases j with
        | zero => omega
        | succ j1 =>
          rw [List.getElem?_cons_succ] at hj
          have step := ih (usage.set i ⟨c0.argvIndex, c0.omitOut || usage[i].omitFlag⟩)
            (i + 1) j1 c hj (by simp; omega)
          simp [applyConstraintUsage, writeUsageAt, hi, step]
      · simp [applyConstraintUsage, writeUsageAt, hi]

/-- Claim C4, amended: a handler constraint-usage output of length at most
`k` (in particular empty or exactly `k`) is applied to the engine's zeroed
usage array index-aligned; but an output longer than `k` is *not*
defensively turned into the generic failure status — a non-nil entry at
position `≥ k` makes the loop index past the engine's array and the Go
runtime aborts (the bounds check does prevent memory corruption, but no
status or diagnostic message is produced). -/
theorem bestIndex_usage_alignment (k : Nat)
    (usageOut : List (Option ConstraintUsageOut)) :
    (usageOut.length ≤ k →
       ∃ cells,
         bestIndexUsagePhase k usageOut = BestIndexOutcome.continued cells ∧
         cells.length = k ∧
         ∀ j : Nat, j < k →
           cells[j]? =
             match usageOut[j]? with
             | some (some c) => some (⟨c.argvIndex, c.omitOut⟩ : UsageCell)
             | _ => some (⟨0, false⟩ : UsageCell)) ∧
    (∀ j c, k ≤ j → usageOut[j]? = some (some c) →
       bestIndexUsagePhase k usageOut = BestIndexOutcome.crash) := by
  constructor
  · intro hlen
    obtain ⟨res, hres, hrlen, hchar⟩ :=
      applyConstraintUsage_char usageOut (List.replicate k ⟨0, false⟩) 0
        (by simp [hlen])
    refine ⟨res, by simp [bestIndexUsagePhase, hres], by simpa using hrlen,
            fun j hj => ?_⟩
    have h := hchar j
    rw [if_neg (by omega), Nat.sub_zero] at h
    simp only [List.getElem?_replicate, if_pos hj, Option.map_some'] at h
    simpa using h
  · intro j c hjk hj
    have h := applyConstraintUsage_oob usageOut (List.replicate k ⟨0, false⟩)
      0 j c hj (by simp; omega)
    simp [bestIndexUsagePhase, h]

/-- Counterexample for C4: with an empty constraint list (`k = 0`) and a
one-entry usage output, the claimed defensive check does not happen — the
trampoline's loop indexes past the engine-allocated array and the Go
runtime aborts instead of returning a failure status with a message. -/
theorem bestIndex_overlong_usage_crashes :
    bestIndexUsagePhase 0 [some ⟨1, false⟩] = BestIndexOutcome.crash := rfl

/-- Witness for the amended C4 at concrete inputs. -/
theorem bestIndex_usage_alignment_witness :
    bestIndexUsagePhase 2 [some ⟨1, true⟩, none] ≠ BestIndexOutcome.crash ∧
    bestIndexUsagePhase 1 [none, some ⟨1, false⟩] = BestIndexOutcome.crash := by
  constructor
  · obtain ⟨cells, hc, -, -⟩ :=
      (bestIndex_usage_alignment 2 [some ⟨1, true⟩, none]).1 (by norm_num)
    rw [hc]
    exact fun h => nomatch h
  · exact (bestIndex_usage_alignment 1 [none, some ⟨1, false⟩]).2 1 ⟨1, false⟩
      (by norm_num) rfl

/-- Witness for C10 at concrete counts. -/
theorem toValues_arity_witness :
    (toValues 5 (fun _ => nullCell)).map List.length = some (5 : Int).toNat ∧
    toValues (-3) (fun _ => nullCell) = some [] ∧
    toValues 128 (fun _ => nullCell) = none :=
  ⟨(toValues_arity 5 _).1 (by norm_num) (by norm_num),
   (toValues_arity (-3) _).2.1 (by norm_num),
   (toValues_arity 128 _).2.2 (by norm_num)⟩

lemma stmtStepLoop_wait_preceded :
    ∀ (rs ws : List Nat) (i w : Nat),
      (stmtStepLoop rs ws).1[i]? = some (StepAction.waitUnlock w) →
      ∃ j, i = j + 1 ∧
        (stmtStepLoop rs ws).1[j]? = some (StepAction.sqliteStep 262) := by
  intro rs
  induction rs with
  | nil =>
    intro ws i w h
    simp [stmtStepLoop] at h
  | cons res rs1 ih =>
    intro ws i w h
    by_cases h6 : res % 256 = 6
    · by_cases h262 : res = 262
      · subst h262
        cases ws with
        | nil =>
          have htr : stmtStepLoop (262 :: rs1) [] =
              ([StepAction.sqliteStep 262], StepOutcome.scriptEnded) := by
            simp [stmtStepLoop]
          rw [htr] at h
          rcases i with _ | i1 <;> simp at h
        | cons w0 ws1 =>
          by_cases hw : w0 = 0
          · subst hw
            have htr : stmtStepLoop (262 :: rs1) (0 :: ws1) =
                (StepAction.sqliteStep 262 :: StepAction.waitUnlock 0 ::
                   StepAction.resetStmt :: (stmtStepLoop rs1 ws1).1,
                 (stmtStepLoop rs1 ws1).2) := by
              simp [stmtStepLoop]
            rw [htr] at h ⊢
            rcases i with _ | (_ | (_ | i3))
            · simp at h
            · exact ⟨0, rfl, rfl⟩
            · simp at h
            · simp only [List.getElem?_cons_succ] at h
              obtain ⟨j, hji, hj⟩ := ih ws1 i3 w h
              refine ⟨j + 3, by omega, ?_⟩
              simpa [List.getElem?_cons_succ] using hj
          · have htr : stmtStepLoop (262 :: rs1) (w0 :: ws1) =
                ([StepAction.sqliteStep 262, StepAction.waitUnlock w0],
                 StepOutcome.fail w0) := by
              simp [stmtStepLoop, hw]
            rw [htr] at h ⊢
            rcases i with _ | (_ | i2)
            · simp at h
            · exact ⟨0, rfl, rfl⟩
            · simp at h
      · have htr : stmtStepLoop (res :: rs1) ws =
            ([StepAction.sqliteStep res], StepOutcome.fail res) := by
          simp [stmtStepLoop, h6, h262]
        rw [htr] at h
        rcases i with _ | i1 <;> simp at h
    · have htr : ∃ o, stmtStepLoop (res :: rs1) ws =
          ([StepAction.sqliteStep res], o) := by
        by_cases h100 : res % 256 = 100
        · exact ⟨StepOutcome.row, by simp [stmtStepLoop, h6, h100]⟩
        · by_cases h101 : res % 256 = 101
          · exact ⟨StepOutcome.done, by simp [stmtStepLoop, h6, h100, h101]⟩
          · exact ⟨StepOutcome.fail res, by simp [stmtStepLoop, h6, h100, h101]⟩
      obtain ⟨o, htr⟩ := htr
      rw [htr] at h
      rcases i with _ | i1 <;> simp at h

/-- Claim C6: the stepping loop surfaces a locked status that is not the
shared-cache variant as an immediate error without ever calling the wait
routine (every wait in the loop's trace is immediately preceded by a
`SQLITE_LOCKED_SHAREDCACHE` step result); only the shared-cache status
enters the wait, after which the statement is reset and the step retried
from the top. -/
theorem Stmt_step_locked_discrimination (rs ws : List Nat) :
    (∀ res rs1, rs = res :: rs1 → res % 256 = 6 → res ≠ 262 →
       stmtStepLoop rs ws =
         ([StepAction.sqliteStep res], StepOutcome.fail res)) ∧
    (∀ rs1 ws1, rs = 262 :: rs1 → ws = 0 :: ws1 →
       stmtStepLoop rs ws =
         (StepAction.sqliteStep 262 :: StepAction.waitUnlock 0 ::
            StepAction.resetStmt :: (stmtStepLoop rs1 ws1).1,
          (stmtStepLoop rs1 ws1).2)) ∧
    (∀ i w, (stmtStepLoop rs ws).1[i]? = some (StepAction.waitUnlock w) →
       ∃ j, i = j + 1 ∧
         (stmtStepLoop rs ws).1[j]? = some (StepAction.sqliteStep 262)) := by
  refine ⟨?_, ?_, stmtStepLoop_wait_preceded rs ws⟩
  · rintro res rs1 rfl h6 hne
    simp [stmtStepLoop, h6, hne]
  · rintro rs1 ws1 rfl rfl
    simp [stmtStepLoop]

/-- Witness for C6: `SQLITE_LOCKED_VTAB` (518, low byte 6) fails immediately
with no wait; `SQLITE_LOCKED_SHAREDCACHE` (262) with a successful wait
resets and retries. -/
theorem Stmt_step_locked_discrimination_witness :
    stmtStepLoop [518] [] =
      ([StepAction.sqliteStep 518], StepOutcome.fail 518) ∧
    stmtStepLoop [262, 100] [0] =
      (StepAction.sqliteStep 262 :: StepAction.waitUnlock 0 ::
         StepAction.resetStmt :: (stmtStepLoop [100] []).1,
       (stmtStepLoop [100] []).2) :=
  ⟨(Stmt_step_locked_discrimination [518] []).1 518 [] rfl (by norm_num)
      (by norm_num),
   (Stmt_step_locked_discrimination [262, 100] [0]).2.1 [100] [] rfl rfl⟩

lemma noteReachable_subset (armOk : Bool) (b : Bool) (R : List NoteSystem)
    (hinit : noteInit b ∈ R)
    (hclosed : ∀ s ∈ R, ∀ t ∈ noteSteps armOk s, t ∈ R) :
    ∀ s, NoteReachable armOk (noteInit b) s → s ∈ R := by
  intro s h
  induction h with
  | refl => exact hinit
  | tail _ h2 ih => exact hclosed _ ih _ h2

lemma noteReachTrue_init (b : Bool) : noteInit b ∈ noteReachTrue := by
  cases b <;> decide

lemma noteReachTrue_closed :
    ∀ s ∈ noteReachTrue, ∀ t ∈ noteSteps true s, t ∈ noteReachTrue := by
  decide

lemma noteReachTrue_stuck_done :
    ∀ s ∈ noteReachTrue, noteSteps true s = [] →
      s.wpc = WaiterPC.finished ∧ s.fpc = FirerPC.finished ∧ s.fired = true := by
  decide

lemma noteReachFalse_init (b : Bool) : noteInit b ∈ noteReachFalse := by
  cases b <;> decide

lemma noteReachFalse_closed :
    ∀ s ∈ noteReachFalse, ∀ t ∈ noteSteps false s, t ∈ noteReachFalse := by
  decide

lemma noteReachFalse_never_blocked :
    ∀ s ∈ noteReachFalse, s.wpc ≠ WaiterPC.blocked := by
  decide

/-- Claim C9: in every interleaving of `_wait_for_unlock_notify` with a
single `_unlock_note_fire` (enabled only once arming succeeded, possibly
before the waiter reaches the mutex), the system never gets stuck with the
waiter blocked: the only stuck state has both routines finished with the
flag fired — the flag test and queue entry are atomic under the mutex, so
the wakeup cannot be lost.  When arming fails, the waiter never enters the
blocked state at all. -/
theorem unlock_note_no_lost_wakeup (b : Bool) (s : NoteSystem) :
    (NoteReachable true (noteInit b) s → noteSteps true s = [] →
       s.wpc = WaiterPC.finished ∧ s.fpc = FirerPC.finished ∧
         s.fired = true) ∧
    (NoteReachable false (noteInit b) s → s.wpc ≠ WaiterPC.blocked) := by
  constructor
  · intro hr hstuck
    exact noteReachTrue_stuck_done s
      (noteReachable_subset true b noteReachTrue (noteReachTrue_init b)
        noteReachTrue_closed s hr) hstuck
  · intro hr
    exact noteReachFalse_never_blocked s
      (noteReachable_subset false b noteReachFalse (noteReachFalse_init b)
        noteReachFalse_closed s hr)

/-- Witness for C9: a concrete fire-before-wait interleaving reaching the
terminal state, and a concrete failed-arming run. -/
theorem unlock_note_no_lost_wakeup_witness :
    ((⟨true, none, true, WaiterPC.finished, FirerPC.finished⟩ :
        NoteSystem).wpc = WaiterPC.finished ∧
     (⟨true, none, true, WaiterPC.finished, FirerPC.finished⟩ :
        NoteSystem).fpc = FirerPC.finished ∧
     (⟨true, none, true, WaiterPC.finished, FirerPC.finished⟩ :
        NoteSystem).fired = true) ∧
    (⟨false, none, false, WaiterPC.finished, FirerPC.start⟩ :
        NoteSystem).wpc ≠ WaiterPC.blocked := by
  constructor
  · have h0 : NoteReachable true (noteInit false) (noteInit false) :=
      NoteReachable.refl
    have h1 : NoteReachable true (noteInit false)
        ⟨false, none, false, WaiterPC.arm, FirerPC.start⟩ :=
      NoteReachable.tail h0 (by decide)
    have h2 : NoteReachable true (noteInit false)
        ⟨false, none, true, WaiterPC.acquire, FirerPC.start⟩ :=
      NoteReachable.tail h1 (by decide)
    have h3 : NoteReachable true (noteInit false)
        ⟨false, some false, true, WaiterPC.acquire, FirerPC.setFlag⟩ :=
      NoteReachable.tail h2 (by decide)
    have h4 : NoteReachable true (noteInit false)
        ⟨true, some false, true, WaiterPC.acquire, FirerPC.signal⟩ :=
      NoteReachable.tail h3 (by decide)
    have h5 : NoteReachable true (noteInit false)
        ⟨true, some false, true, WaiterPC.acquire, FirerPC.release⟩ :=
      NoteReachable.tail h4 (by decide)
    have h6 : NoteReachable true (noteInit false)
        ⟨true, none, true, WaiterPC.acquire, FirerPC.finished⟩ :=
      NoteReachable.tail h5 (by decide)
    have h7 : NoteReachable true (noteInit false)
        ⟨true, some true, true, WaiterPC.checkFlag, FirerPC.finished⟩ :=
      NoteReachable.tail h6 (by decide)
    have h8 : NoteReachable true (noteInit false)
        ⟨true, some true, true, WaiterPC.release, FirerPC.finished⟩ :=
      NoteReachable.tail h7 (by decide)
    have h9 : NoteReachable true (noteInit false)
        ⟨true, none, true, WaiterPC.finished, FirerPC.finished⟩ :=
      NoteReachable.tail h8 (by decide)
    exact (unlock_note_no_lost_wakeup false _).1 h9 (by decide)
  · have g0 : NoteReachable false (noteInit false) (noteInit false) :=
      NoteReachable.refl
    have g1 : NoteReachable false (noteInit false)
        ⟨false, none, false, WaiterPC.arm, FirerPC.start⟩ :=
      NoteReachable.tail g0 (by decide)
    have g2 : NoteReachable false (noteInit false)
        ⟨false, none, false, WaiterPC.finished, FirerPC.start⟩ :=
      NoteReachable.tail g1 (by decide)
    exact (unlock_note_no_lost_wakeup false _).2 g2

end GoSqlite
